import Mathlib

/-!
Verification of the session/recommendation core of `whatever.eat`
(`src/line_bot/session.py` and `src/line_bot/manager.py`).

The `SessionManager` wraps a `cachetools.TTLCache` keyed by user id.  We
embed the cache as an association list ordered oldest-insertion-first,
with per-entry absolute expiry times, following cachetools' documented
semantics: an entry is readable while `¬ (expires < now)`; `__setitem__`
first removes expired entries, then (for a new key) evicts the oldest
entries until there is room, then appends the new entry with expiry
`now + ttl`.  Time is an explicit `Nat` parameter to every operation
(the injectable clock).  Python's mutation of a session object held
inside the cache is embedded as an in-place update of the entry's
`session` field that leaves its `expires` field untouched, which is
exactly what `session.py` does on the update paths (it never re-inserts
the key).
-/

/-- Embeds `UserLocation` from `session.py` (coordinates are modelled as
integers; no claim depends on float arithmetic). -/
structure UserLocation where
  title : String
  address : String
  latitude : Int
  longitude : Int
  deriving DecidableEq, Repr

/-- The `location_data` dict handed to `set_user_location`: each key may be
missing (`none`).  A present-but-empty string is `some ""`, which Python's
`or` treats the same as a missing key. -/
structure LocationData where
  title : Option String
  address : Option String
  latitude : Option Int
  longitude : Option Int
  deriving DecidableEq, Repr

/-- Python's `x or d` for an optional string: the default is used when the
value is absent or falsy (the empty string). -/
def pyStrOr (o : Option String) (d : String) : String :=
  match o with
  | none => d
  | some s => if s = "" then d else s

/-- `collections.deque(maxlen=cap)` append: add on the right, dropping from
the left whatever exceeds the capacity. -/
def deqAppend (cap : Nat) (xs : List String) (x : String) : List String :=
  (xs ++ [x]).drop (xs.length + 1 - cap)

/-- Embeds `UserSession` from `session.py`: `recent_recommendations` is the
capacity-5 deque listed oldest first. -/
structure UserSession where
  location : UserLocation
  recent_recommendations : List String
  recommendation_count : Nat
  deriving DecidableEq, Repr

/-- `UserSession.add_recommendation`: append to the bounded deque and bump
the total count. -/
def UserSession.add_recommendation (s : UserSession) (restaurant_id : String) : UserSession :=
  { s with
    recent_recommendations := deqAppend 5 s.recent_recommendations restaurant_id
    recommendation_count := s.recommendation_count + 1 }

/-- `UserSession.has_recent_recommendation`. -/
def UserSession.has_recent_recommendation (s : UserSession) (restaurant_id : String) : Bool :=
  s.recent_recommendations.contains restaurant_id

/-- One cache slot: the absolute expiry time assigned at insertion and the
stored session. -/
structure Entry where
  expires : Nat
  session : UserSession
  deriving DecidableEq, Repr

/-- cachetools liveness test: an entry is readable at time `t` while
`¬ (expires < t)`. -/
def Entry.alive (e : Entry) (t : Nat) : Bool :=
  !(decide (e.expires < t))

/-- First entry stored under `uid` (Python dict lookup; keys are unique in
any state the code can build). -/
def lookupEntry (c : List (String × Entry)) (uid : String) : Option Entry :=
  match c with
  | [] => none
  | (k, e) :: rest => if k = uid then some e else lookupEntry rest uid

/-- Embeds `SessionManager.__init__`: capacity, TTL and the TTLCache
contents (oldest insertion first). -/
structure SessionManager where
  max_users : Nat
  location_ttl : Nat
  cache : List (String × Entry)
  deriving DecidableEq, Repr

/-- `TTLCache.expire(time)`: drop every entry whose expiry has passed. -/
def expireCache (t : Nat) (c : List (String × Entry)) : List (String × Entry) :=
  c.filter (fun p => p.2.alive t)

/-- The eviction loop inside `Cache.__setitem__` for a new key: pop the
oldest entries until the new one fits under `max_users`. -/
def evictForInsert (cap : Nat) (c : List (String × Entry)) : List (String × Entry) :=
  c.drop (c.length + 1 - cap)

/-- `TTLCache.__setitem__` on a key that is not currently live: expire,
evict for room, then append the entry with expiry `t + ttl`. -/
def cacheInsert (m : SessionManager) (t : Nat) (uid : String) (s : UserSession) :
    List (String × Entry) :=
  evictForInsert m.max_users (expireCache t m.cache) ++ [(uid, ⟨t + m.location_ttl, s⟩)]

/-- In-place mutation of the session object stored under `uid`: the entry's
expiry is untouched (Python mutates the object the dict points at). -/
def updateSession : List (String × Entry) → String → (UserSession → UserSession) →
    List (String × Entry)
  | [], _, _ => []
  | (k, e) :: rest, uid, f =>
    if k = uid then (k, ⟨e.expires, f e.session⟩) :: updateSession rest uid f
    else (k, e) :: updateSession rest uid f

/-- `TTLCache.get`: the stored session if present and not expired. -/
def SessionManager.cacheGet (m : SessionManager) (t : Nat) (uid : String) : Option UserSession :=
  match lookupEntry m.cache uid with
  | some e => if e.alive t then some e.session else none
  | none => none

/-- Embeds `SessionManager.set_user_location`.  Validation happens before
any cache access, so the failure path returns the manager unchanged.  On
success: if a live session exists its `location` field is replaced in
place (the entry is *not* re-inserted), otherwise a fresh session with
empty history and count 0 is inserted. -/
def SessionManager.set_user_location (m : SessionManager) (t : Nat) (uid : String)
    (d : LocationData) : Except String UserLocation × SessionManager :=
  match d.latitude, d.longitude with
  | some lat, some lng =>
    let loc : UserLocation :=
      { title := pyStrOr d.title "Unknown Location"
        address := pyStrOr d.address "No address provided"
        latitude := lat
        longitude := lng }
    match m.cacheGet t uid with
    | some _ =>
      (Except.ok loc, { m with cache := updateSession m.cache uid (fun s => { s with location := loc }) })
    | none =>
      (Except.ok loc, { m with cache := cacheInsert m t uid ⟨loc, [], 0⟩ })
  | _, _ =>
    (Except.error "Invalid location data: Missing required coordinates (latitude/longitude)", m)

/-- Embeds `SessionManager.get_user_location` (read does not refresh TTL). -/
def SessionManager.get_user_location (m : SessionManager) (t : Nat) (uid : String) :
    Option UserLocation :=
  (m.cacheGet t uid).map (·.location)

/-- Embeds `SessionManager.get_user_session`. -/
def SessionManager.get_user_session (m : SessionManager) (t : Nat) (uid : String) :
    Option UserSession :=
  m.cacheGet t uid

/-- Embeds `SessionManager.remove_user_location`: delete the record if it
is live, reporting whether something was deleted. -/
def SessionManager.remove_user_location (m : SessionManager) (t : Nat) (uid : String) :
    Bool × SessionManager :=
  match m.cacheGet t uid with
  | some _ => (true, { m with cache := m.cache.filter (fun p => p.1 ≠ uid) })
  | none => (false, m)

/-- Embeds `SessionManager.add_recommendation`: mutate the live session in
place; return `false` (and change nothing) when there is none. -/
def SessionManager.add_recommendation (m : SessionManager) (t : Nat) (uid : String)
    (restaurant_id : String) : Bool × SessionManager :=
  match m.cacheGet t uid with
  | some _ =>
    (true, { m with cache := updateSession m.cache uid (·.add_recommendation restaurant_id) })
  | none => (false, m)

/-- Embeds `SessionManager.is_recently_recommended`. -/
def SessionManager.is_recently_recommended (m : SessionManager) (t : Nat) (uid : String)
    (restaurant_id : String) : Bool :=
  match m.cacheGet t uid with
  | some s => s.has_recent_recommendation restaurant_id
  | none => false

/-- Embeds `SessionManager.get_recent_recommendations`: snapshot copy of
the deque, oldest first; empty when no live session. -/
def SessionManager.get_recent_recommendations (m : SessionManager) (t : Nat) (uid : String) :
    List String :=
  match m.cacheGet t uid with
  | some s => s.recent_recommendations
  | none => []

/-- Embeds `SessionManager.cleanup_expired`: eager sweep, returning the
number of entries removed. -/
def SessionManager.cleanup_expired (m : SessionManager) (t : Nat) : Nat × SessionManager :=
  let c := expireCache t m.cache
  (m.cache.length - c.length, { m with cache := c })

/-!
Selection policy from `manager.py` (`LineBotManager._select_open_restaurant`
and `_is_restaurant_open`).  A Google Places result is embedded by the
three attributes the selection code reads: `id` (may be absent or the
falsy empty string), `display_name.text` (may be absent) and the openness
signal.  `open_now = none` embeds "no `regular_opening_hours` on the
object"; `open_now = some b` embeds `regular_opening_hours.open_now = b`.
`random.choice` is embedded by an oracle `rng : Nat → Nat` giving the
index drawn at each call site; theorems quantify over the oracle.
-/

/-- A candidate venue as consumed by the selection code. -/
structure Restaurant where
  id : Option String
  display_name : Option String
  open_now : Option Bool
  deriving DecidableEq, Repr

/-- The `get_restaurant_id` helper inside `_select_open_restaurant`: a
truthy place id wins, else the display name, else a fixed fallback. -/
def get_restaurant_id (r : Restaurant) : String :=
  match r.id with
  | some s => if s = "" then r.display_name.getD "unknown_restaurant" else s
  | none => r.display_name.getD "unknown_restaurant"

/-- Embeds `LineBotManager._is_restaurant_open`: missing opening-hours
info counts as open; otherwise the `open_now` flag decides. -/
def is_restaurant_open (r : Restaurant) : Bool :=
  match r.open_now with
  | none => true
  | some b => b

/-- `random.choice(xs)` given a drawn index `n` (reduced modulo the list
length; every call site guards against the empty list). -/
def pickR (n : Nat) (xs : List Restaurant) : Restaurant :=
  xs.getD (n % xs.length) ⟨none, none, none⟩

/-- The `available_restaurants` list computed by `_select_open_restaurant`:
candidates not recently recommended, falling back to the full list when
the filter leaves nothing. -/
def availableOf (m : SessionManager) (t : Nat) (uid : String)
    (restaurants : List Restaurant) : List Restaurant :=
  let avail := restaurants.filter (fun r => !(m.is_recently_recommended t uid (get_restaurant_id r)))
  if avail.isEmpty then restaurants else avail

/-- The retry loop of `_select_open_restaurant`: up to `max_attempts`
random draws from `available`, stopping at the first open hit. -/
def retryDraw (rng : Nat → Nat) (available : List Restaurant)
    (max_attempts attempt_count : Nat) : Option (Restaurant × Nat) × Nat :=
  if attempt_count < max_attempts then
    let sel := pickR (rng (attempt_count + 1)) available
    if is_restaurant_open sel then (some (sel, attempt_count + 1), attempt_count + 1)
    else retryDraw rng available max_attempts (attempt_count + 1)
  else (none, attempt_count)
termination_by max_attempts - attempt_count

/-- Embeds `LineBotManager._select_open_restaurant`: returns the chosen
venue (if any) with the attempt count, plus the manager after the
recording `add_recommendation` call. -/
def select_open_restaurant (m : SessionManager) (t : Nat) (rng : Nat → Nat)
    (restaurants : List Restaurant) (uid : String) (max_attempts : Nat) :
    (Option Restaurant × Nat) × SessionManager :=
  if restaurants.isEmpty then ((none, 0), m)
  else
    if ((availableOf m t uid restaurants).filter is_restaurant_open).isEmpty then
      match retryDraw rng (availableOf m t uid restaurants) max_attempts 0 with
      | (some (sel, k), _) =>
        ((some sel, k), (m.add_recommendation t uid (get_restaurant_id sel)).2)
      | (none, k) =>
        ((some (pickR (rng (max_attempts + 1)) (availableOf m t uid restaurants)), k),
         (m.add_recommendation t uid
            (get_restaurant_id (pickR (rng (max_attempts + 1))
              (availableOf m t uid restaurants)))).2)
    else
      ((some (pickR (rng 0) ((availableOf m t uid restaurants).filter is_restaurant_open)), 1),
       (m.add_recommendation t uid
          (get_restaurant_id (pickR (rng 0)
            ((availableOf m t uid restaurants).filter is_restaurant_open)))).2)

/-- The store operations a caller can perform (used to state the capacity
invariant over arbitrary operation sequences). -/
inductive SessionOp where
  | setLoc (uid : String) (d : LocationData)
  | addRec (uid : String) (restaurant_id : String)
  | removeLoc (uid : String)
  | cleanup
  deriving DecidableEq, Repr

/-- One store operation at a given time. -/
def SessionManager.step (m : SessionManager) (t : Nat) : SessionOp → SessionManager
  | .setLoc uid d => (m.set_user_location t uid d).2
  | .addRec uid rid => (m.add_recommendation t uid rid).2
  | .removeLoc uid => (m.remove_user_location t uid).2
  | .cleanup => (m.cleanup_expired t).2

/-- A timestamped sequence of store operations. -/
def SessionManager.run (m : SessionManager) (ops : List (Nat × SessionOp)) : SessionManager :=
  ops.foldl (fun m p => m.step p.1 p.2) m

/-- N successive `add_recommendation` calls for one user at one time. -/
def SessionManager.addAll (m : SessionManager) (t : Nat) (uid : String) (ids : List String) :
    SessionManager :=
  ids.foldl (fun m rid => (m.add_recommendation t uid rid).2) m

/-! ### Helper lemmas about the cache association list -/

theorem lookupEntry_updateSession (c : List (String × Entry)) (uid : String)
    (f : UserSession → UserSession) :
    lookupEntry (updateSession c uid f) uid =
      (lookupEntry c uid).map (fun e => ⟨e.expires, f e.session⟩) := by
  induction c with
  | nil => rfl
  | cons p rest ih =>
    obtain ⟨k, e⟩ := p
    by_cases h : k = uid
    · subst h
      simp [updateSession, lookupEntry]
    · simp [updateSession, lookupEntry, h, ih]

theorem cacheGet_updateSession (m : SessionManager) (t : Nat) (uid : String)
    (f : UserSession → UserSession) (s : UserSession)
    (h : m.cacheGet t uid = some s) :
    SessionManager.cacheGet { m with cache := updateSession m.cache uid f } t uid
      = some (f s) := by
  unfold SessionManager.cacheGet at h ⊢
  rw [lookupEntry_updateSession]
  cases hl : lookupEntry m.cache uid with
  | none => rw [hl] at h; exact absurd h (by simp)
  | some e =>
    rw [hl] at h
    by_cases ha : e.alive t = true
    · have hs : e.session = s := by simpa [ha] using h
      have ha2 : Entry.alive ⟨e.expires, f s⟩ t = true := ha
      simp [ha2, hs]
    · simp [ha] at h

theorem lookupEntry_eq_none_iff (c : List (String × Entry)) (uid : String) :
    lookupEntry c uid = none ↔ uid ∉ c.map Prod.fst := by
  induction c with
  | nil => simp [lookupEntry]
  | cons p rest ih =>
    obtain ⟨k, e⟩ := p
    by_cases h : k = uid
    · subst h; simp [lookupEntry]
    · simp only [lookupEntry, h, if_neg, not_false_iff, List.map_cons, List.mem_cons]
      rw [ih]
      constructor
      · rintro hn (hh | hh)
        · exact h hh.symm
        · exact hn hh
      · intro hn hmem
        exact hn (Or.inr hmem)

theorem lookupEntry_append_single (c : List (String × Entry)) (uid : String) (e : Entry)
    (h : uid ∉ c.map Prod.fst) :
    lookupEntry (c ++ [(uid, e)]) uid = some e := by
  induction c with
  | nil => simp [lookupEntry]
  | cons p rest ih =>
    obtain ⟨k, e'⟩ := p
    simp only [List.map_cons, List.mem_cons, not_or] at h
    have hk : ¬ k = uid := fun hh => h.1 hh.symm
    simp only [List.cons_append, lookupEntry, hk, if_neg, not_false_iff]
    exact ih h.2

theorem keys_filter_subset (p : String × Entry → Bool) (c : List (String × Entry)) :
    ((c.filter p).map Prod.fst) ⊆ c.map Prod.fst := by
  intro x hx
  simp only [List.mem_map] at hx ⊢
  obtain ⟨q, hq, rfl⟩ := hx
  exact ⟨q, List.mem_of_mem_filter hq, rfl⟩

theorem keys_drop_not_mem (n : Nat) (c : List (String × Entry)) (uid : String)
    (h : uid ∉ c.map Prod.fst) : uid ∉ (c.drop n).map Prod.fst := by
  intro hmem
  apply h
  simp only [List.mem_map] at hmem ⊢
  obtain ⟨q, hq, rfl⟩ := hmem
  exact ⟨q, List.mem_of_mem_drop hq, rfl⟩

theorem keys_expire_not_mem (t : Nat) (c : List (String × Entry)) (uid : String)
    (hnd : (c.map Prod.fst).Nodup)
    (h : ∀ e, lookupEntry c uid = some e → e.alive t = false) :
    uid ∉ (expireCache t c).map Prod.fst := by
  induction c with
  | nil => simp [expireCache]
  | cons p rest ih =>
    obtain ⟨k, e⟩ := p
    simp only [List.map_cons, List.nodup_cons] at hnd
    by_cases hk : k = uid
    · subst hk
      have hdead : e.alive t = false := h e (by simp [lookupEntry])
      intro hmem
      simp only [expireCache] at hmem
      rw [List.filter_cons_of_neg (by simp [hdead])] at hmem
      exact hnd.1 (keys_filter_subset _ rest hmem)
    · have hrest := ih hnd.2 (fun e' he' => h e' (by simpa [lookupEntry, hk] using he'))
      intro hmem
      simp only [expireCache] at hmem hrest
      by_cases ha : e.alive t = true
      · rw [List.filter_cons_of_pos (by simp [ha])] at hmem
        simp only [List.map_cons, List.mem_cons] at hmem
        rcases hmem with hh | hh
        · exact hk hh.symm
        · exact hrest hh
      · rw [List.filter_cons_of_neg (by simp [Bool.eq_false_iff.mpr ha])] at hmem
        exact hrest hmem

/-- After a fresh insert (no live entry for `uid`, unique keys), the cache
holds exactly the new session under `uid`, with expiry `t + ttl`. -/
theorem lookupEntry_cacheInsert (m : SessionManager) (t : Nat) (uid : String) (s : UserSession)
    (hnd : (m.cache.map Prod.fst).Nodup)
    (h : m.cacheGet t uid = none) :
    lookupEntry (cacheInsert m t uid s) uid = some ⟨t + m.location_ttl, s⟩ := by
  apply lookupEntry_append_single
  apply keys_drop_not_mem
  apply keys_expire_not_mem _ _ _ hnd
  intro e he
  unfold SessionManager.cacheGet at h
  rw [he] at h
  by_cases ha : e.alive t = true
  · simp [ha] at h
  · simpa using ha

/-! ### Helper lemmas about the selection policy -/

theorem pickR_mem (n : Nat) (xs : List Restaurant) (h : xs ≠ []) : pickR n xs ∈ xs := by
  have hlen : 0 < xs.length := List.length_pos.mpr h
  have hlt : n % xs.length < xs.length := Nat.mod_lt _ hlen
  unfold pickR
  rw [List.getD_eq_getElem _ _ hlt]
  exact List.getElem_mem hlt

theorem availableOf_ne_nil (m : SessionManager) (t : Nat) (uid : String)
    (rs : List Restaurant) (h : rs ≠ []) : availableOf m t uid rs ≠ [] := by
  unfold availableOf
  by_cases he :
      (rs.filter (fun r => !(m.is_recently_recommended t uid (get_restaurant_id r)))).isEmpty
  · simpa [he] using h
  · simp only [he, if_neg, Bool.not_eq_true]
    intro hn
    rw [hn] at he
    simp at he

theorem availableOf_subset (m : SessionManager) (t : Nat) (uid : String)
    (rs : List Restaurant) : availableOf m t uid rs ⊆ rs := by
  unfold availableOf
  by_cases he :
      (rs.filter (fun r => !(m.is_recently_recommended t uid (get_restaurant_id r)))).isEmpty
  · simp [he]
  · simp only [he, if_neg, Bool.not_eq_true]
    intro x hx
    exact List.mem_of_mem_filter hx

/-- When every available venue is explicitly closed (and the pool is
non-empty), the retry loop exhausts its budget without a hit. -/
theorem retryDraw_all_closed (rng : Nat → Nat) (avail : List Restaurant)
    (hne : avail ≠ []) (hclosed : ∀ r ∈ avail, is_restaurant_open r = false)
    (ma k : Nat) : retryDraw rng avail ma k = (none, max ma k) := by
  by_cases h : k < ma
  · rw [retryDraw]
    have hopen : is_restaurant_open (pickR (rng (k + 1)) avail) = false :=
      hclosed _ (pickR_mem _ _ hne)
    simp only [h, if_pos, hopen, Bool.false_eq_true, if_neg, not_false_iff]
    have := retryDraw_all_closed rng avail hne hclosed ma (k + 1)
    rw [this]
    congr 1
    omega
  · rw [retryDraw]
    simp only [h, if_neg, not_false_iff]
    congr 1
    omega
termination_by ma - k

/-! ### Helper lemmas about repeated recommendations -/

theorem cacheGet_addAll (m : SessionManager) (t : Nat) (uid : String) (ids : List String)
    (s : UserSession) (h : m.cacheGet t uid = some s) :
    (m.addAll t uid ids).cacheGet t uid
      = some (ids.foldl UserSession.add_recommendation s) := by
  induction ids generalizing m s with
  | nil => simpa [SessionManager.addAll] using h
  | cons x ids ih =>
    have hstep :
        (m.add_recommendation t uid x).2.cacheGet t uid = some (s.add_recommendation x) := by
      unfold SessionManager.add_recommendation
      rw [h]
      exact cacheGet_updateSession m t uid _ s h
    have hrun : (m.addAll t uid (x :: ids)) = ((m.add_recommendation t uid x).2).addAll t uid ids := by
      simp [SessionManager.addAll]
    rw [hrun, ih _ _ hstep]
    simp

/-- Taking the last-five suffix, appending more, and taking the last-five
suffix again is the same as taking the last-five suffix of the whole
concatenation. -/
theorem drop_suffix_absorb {α : Type} (cap : Nat) (u v : List α) :
    ((u.drop (u.length - cap)) ++ v).drop (((u.drop (u.length - cap)) ++ v).length - cap)
      = (u ++ v).drop ((u ++ v).length - cap) := by
  have ha : u.length - cap ≤ u.length := Nat.sub_le _ _
  have h1 : (u.drop (u.length - cap)) ++ v = (u ++ v).drop (u.length - cap) :=
    (List.drop_append_of_le_length ha).symm
  rw [h1, List.drop_drop]
  congr 1
  simp only [List.length_drop, List.length_append]
  omega

/-- Pure fold of the bounded deque: starting from a short enough history,
folding in `ids` keeps the last five of the concatenation and counts all
of them. -/
theorem foldl_add_recommendation (ids : List String) (s : UserSession)
    (hlen : s.recent_recommendations.length ≤ 5) :
    (ids.foldl UserSession.add_recommendation s).recent_recommendations
        = (s.recent_recommendations ++ ids).drop
            ((s.recent_recommendations ++ ids).length - 5)
      ∧ (ids.foldl UserSession.add_recommendation s).recommendation_count
          = s.recommendation_count + ids.length := by
  induction ids generalizing s with
  | nil =>
    refine ⟨?_, by simp⟩
    have h0 : s.recent_recommendations.length - 5 = 0 := by omega
    simp [h0]
  | cons x ids ih =>
    have hstep : (s.add_recommendation x).recent_recommendations
        = (s.recent_recommendations ++ [x]).drop
            ((s.recent_recommendations ++ [x]).length - 5) := by
      simp only [List.length_append, List.length_cons, List.length_nil]
      rfl
    have hlen' : (s.add_recommendation x).recent_recommendations.length ≤ 5 := by
      rw [hstep]
      simp only [List.length_drop, List.length_append, List.length_cons, List.length_nil]
      omega
    obtain ⟨h1, h2⟩ := ih (s.add_recommendation x) hlen'
    constructor
    · rw [List.foldl_cons, h1, hstep, drop_suffix_absorb 5]
      simp [List.append_assoc]
    · have hc : (s.add_recommendation x).recommendation_count
          = s.recommendation_count + 1 := rfl
      rw [List.foldl_cons, h2, hc, List.length_cons]
      omega

/-! ### Claim theorems -/

/-- C5: for every user id and location data missing latitude or longitude,
`set_user_location` fails with the validation error and leaves the store
entirely unchanged — no record is created for the user and no existing
record is mutated. -/
theorem C5_setLocation_validation_no_state_change (m : SessionManager) (t : Nat)
    (uid : String) (d : LocationData) (h : d.latitude = none ∨ d.longitude = none) :
    m.set_user_location t uid d
      = (Except.error "Invalid location data: Missing required coordinates (latitude/longitude)",
         m) := by
  unfold SessionManager.set_user_location
  rcases h with h | h
  · rw [h]
  · rw [h]
    cases d.latitude <;> rfl

/-- C5 witness: missing longitude on a concrete store fails and leaves the
store unchanged. -/
theorem C5_setLocation_validation_no_state_change_witness :
    (LocationData.mk (some "Home") (some "1 Main St") (some 25) none).latitude = none
        ∨ (LocationData.mk (some "Home") (some "1 Main St") (some 25) none).longitude = none
      ∧ SessionManager.set_user_location ⟨1000, 1800, []⟩ 0 "u1"
          (LocationData.mk (some "Home") (some "1 Main St") (some 25) none)
        = (Except.error "Invalid location data: Missing required coordinates (latitude/longitude)",
           ⟨1000, 1800, []⟩) :=
  Or.inr ⟨rfl,
    C5_setLocation_validation_no_state_change ⟨1000, 1800, []⟩ 0 "u1"
      (LocationData.mk (some "Home") (some "1 Main St") (some 25) none) (Or.inr rfl)⟩

/-- C6: for a user with no stored (or an expired) session,
`add_recommendation` returns `false` and changes nothing: the returned
manager is the old one, a subsequent `get_user_session` is still absent,
and the entry count is unchanged. -/
theorem C6_addRecommendation_no_create (m : SessionManager) (t : Nat)
    (uid restaurant_id : String) (h : m.get_user_session t uid = none) :
    m.add_recommendation t uid restaurant_id = (false, m)
      ∧ ((m.add_recommendation t uid restaurant_id).2).get_user_session t uid = none
      ∧ ((m.add_recommendation t uid restaurant_id).2).cache.length = m.cache.length := by
  have he : m.add_recommendation t uid restaurant_id = (false, m) := by
    unfold SessionManager.add_recommendation
    unfold SessionManager.get_user_session at h
    rw [h]
  refine ⟨he, ?_, ?_⟩ <;> rw [he] <;> simp [h]

/-- C6 witness: with an empty store, recommending creates nothing. -/
theorem C6_addRecommendation_no_create_witness :
    SessionManager.get_user_session ⟨1000, 1800, []⟩ 0 "u1" = none
      ∧ (SessionManager.add_recommendation ⟨1000, 1800, []⟩ 0 "u1" "place-42"
            = (false, ⟨1000, 1800, []⟩)
        ∧ ((SessionManager.add_recommendation ⟨1000, 1800, []⟩ 0 "u1" "place-42").2).get_user_session
            0 "u1" = none
        ∧ ((SessionManager.add_recommendation ⟨1000, 1800, []⟩ 0 "u1" "place-42").2).cache.length
            = (SessionManager.mk 1000 1800 []).cache.length) :=
  ⟨rfl, C6_addRecommendation_no_create ⟨1000, 1800, []⟩ 0 "u1" "place-42" rfl⟩

/-- C7: a `set_user_location` call on a user who already has a live session
replaces only the `location` field: the recent-recommendations sequence
and the recommendation count read back unchanged. -/
theorem C7_setLocation_preserves_history (m : SessionManager) (t : Nat) (uid : String)
    (d : LocationData) (s : UserSession) (lat lng : Int)
    (hs : m.get_user_session t uid = some s)
    (hlat : d.latitude = some lat) (hlng : d.longitude = some lng) :
    ((m.set_user_location t uid d).2).get_recent_recommendations t uid
        = m.get_recent_recommendations t uid
      ∧ ∃ s', ((m.set_user_location t uid d).2).get_user_session t uid = some s'
          ∧ s'.recent_recommendations = s.recent_recommendations
          ∧ s'.recommendation_count = s.recommendation_count := by
  unfold SessionManager.get_user_session at hs
  have hset : (m.set_user_location t uid d).2
      = { m with cache := updateSession m.cache uid (fun s => { s with location :=
            { title := pyStrOr d.title "Unknown Location"
              address := pyStrOr d.address "No address provided"
              latitude := lat
              longitude := lng } }) } := by
    unfold SessionManager.set_user_location
    rw [hlat, hlng, hs]
  have hget := cacheGet_updateSession m t uid
    (fun s => { s with location :=
      { title := pyStrOr d.title "Unknown Location"
        address := pyStrOr d.address "No address provided"
        latitude := lat
        longitude := lng } }) s hs
  constructor
  · rw [hset]
    unfold SessionManager.get_recent_recommendations
    rw [hget, hs]
  · exact ⟨{ s with location :=
      { title := pyStrOr d.title "Unknown Location"
        address := pyStrOr d.address "No address provided"
        latitude := lat
        longitude := lng } }, by rw [hset]; exact hget, rfl, rfl⟩

/-- C7 witness: concrete store with one live session; the location update
keeps its history and count. -/
theorem C7_setLocation_preserves_history_witness :
    SessionManager.get_user_session
        ⟨1000, 1800, [("u1", ⟨1800, ⟨⟨"A", "B", 1, 2⟩, ["p1"], 3⟩⟩)]⟩ 0 "u1"
        = some ⟨⟨"A", "B", 1, 2⟩, ["p1"], 3⟩
      ∧ ((SessionManager.set_user_location
            ⟨1000, 1800, [("u1", ⟨1800, ⟨⟨"A", "B", 1, 2⟩, ["p1"], 3⟩⟩)]⟩ 0 "u1"
            (LocationData.mk (some "Home") (some "1 Main St") (some 25) (some 121))).2).get_recent_recommendations
            0 "u1"
          = SessionManager.get_recent_recommendations
              ⟨1000, 1800, [("u1", ⟨1800, ⟨⟨"A", "B", 1, 2⟩, ["p1"], 3⟩⟩)]⟩ 0 "u1"
      ∧ ∃ s', ((SessionManager.set_user_location
            ⟨1000, 1800, [("u1", ⟨1800, ⟨⟨"A", "B", 1, 2⟩, ["p1"], 3⟩⟩)]⟩ 0 "u1"
            (LocationData.mk (some "Home") (some "1 Main St") (some 25) (some 121))).2).get_user_session
            0 "u1" = some s'
          ∧ s'.recent_recommendations = ["p1"]
          ∧ s'.recommendation_count = 3 :=
  ⟨rfl, C7_setLocation_preserves_history
    ⟨1000, 1800, [("u1", ⟨1800, ⟨⟨"A", "B", 1, 2⟩, ["p1"], 3⟩⟩)]⟩ 0 "u1"
    (LocationData.mk (some "Home") (some "1 Main St") (some 25) (some 121))
    ⟨⟨"A", "B", 1, 2⟩, ["p1"], 3⟩ 25 121 rfl rfl rfl⟩

/-- C2: starting from an existing session with empty history, N
recommendations with distinct venue ids leave the last `min(N,5)` ids in
insertion order (oldest first) in the history, of length `min(N,5)`,
while the total count is N. -/
theorem C2_history_bound (m : SessionManager) (t : Nat) (uid : String)
    (ids : List String) (loc : UserLocation)
    (hs : m.get_user_session t uid = some ⟨loc, [], 0⟩)
    (hnd : ids.Nodup) :
    (m.addAll t uid ids).get_recent_recommendations t uid = ids.drop (ids.length - 5)
      ∧ ((m.addAll t uid ids).get_recent_recommendations t uid).length = min ids.length 5
      ∧ ∃ s', (m.addAll t uid ids).get_user_session t uid = some s'
          ∧ s'.recommendation_count = ids.length := by
  unfold SessionManager.get_user_session at hs
  have hget := cacheGet_addAll m t uid ids ⟨loc, [], 0⟩ hs
  obtain ⟨h1, h2⟩ := foldl_add_recommendation ids ⟨loc, [], 0⟩ (by simp)
  simp only [List.nil_append, List.length_nil, Nat.zero_add] at h1 h2
  have hrecent : (m.addAll t uid ids).get_recent_recommendations t uid
      = ids.drop (ids.length - 5) := by
    unfold SessionManager.get_recent_recommendations
    rw [hget]
    exact h1
  refine ⟨hrecent, ?_, ⟨_, hget, h2⟩⟩
  rw [hrecent]
  simp only [List.length_drop]
  omega

/-- C2 witness: six distinct recommendations on a fresh session keep the
last five, and the count is six. -/
theorem C2_history_bound_witness :
    SessionManager.get_user_session
        ⟨1000, 1800, [("u1", ⟨1800, ⟨⟨"A", "B", 1, 2⟩, [], 0⟩⟩)]⟩ 0 "u1"
        = some ⟨⟨"A", "B", 1, 2⟩, [], 0⟩
      ∧ (["v1", "v2", "v3", "v4", "v5", "v6"] : List String).Nodup
      ∧ ((SessionManager.addAll ⟨1000, 1800, [("u1", ⟨1800, ⟨⟨"A", "B", 1, 2⟩, [], 0⟩⟩)]⟩
            0 "u1" ["v1", "v2", "v3", "v4", "v5", "v6"]).get_recent_recommendations 0 "u1"
          = ["v2", "v3", "v4", "v5", "v6"]
        ∧ ((SessionManager.addAll ⟨1000, 1800, [("u1", ⟨1800, ⟨⟨"A", "B", 1, 2⟩, [], 0⟩⟩)]⟩
            0 "u1" ["v1", "v2", "v3", "v4", "v5", "v6"]).get_recent_recommendations 0 "u1").length
          = min 6 5
        ∧ ∃ s', (SessionManager.addAll ⟨1000, 1800, [("u1", ⟨1800, ⟨⟨"A", "B", 1, 2⟩, [], 0⟩⟩)]⟩
              0 "u1" ["v1", "v2", "v3", "v4", "v5", "v6"]).get_user_session 0 "u1" = some s'
            ∧ s'.recommendation_count = 6) :=
  ⟨rfl, by decide,
    C2_history_bound ⟨1000, 1800, [("u1", ⟨1800, ⟨⟨"A", "B", 1, 2⟩, [], 0⟩⟩)]⟩ 0 "u1"
      ["v1", "v2", "v3", "v4", "v5", "v6"] ⟨"A", "B", 1, 2⟩ rfl (by decide)⟩

/-- C10: in `set_user_location` the fallback strings apply to present but
empty (falsy) titles and addresses too: an empty title is stored and
returned as "Unknown Location" and an empty address as "No address
provided". -/
theorem C10_falsy_fallback (m : SessionManager) (t : Nat) (uid : String)
    (d : LocationData) (lat lng : Int)
    (hnd : (m.cache.map Prod.fst).Nodup)
    (hlat : d.latitude = some lat) (hlng : d.longitude = some lng)
    (htitle : d.title = some "") (haddr : d.address = some "") :
    (m.set_user_location t uid d).1
        = Except.ok ⟨"Unknown Location", "No address provided", lat, lng⟩
      ∧ ((m.set_user_location t uid d).2).get_user_location t uid
          = some ⟨"Unknown Location", "No address provided", lat, lng⟩ := by
  cases hc : m.cacheGet t uid with
  | some s =>
    have hset : m.set_user_location t uid d
        = (Except.ok ⟨"Unknown Location", "No address provided", lat, lng⟩,
           { m with cache := updateSession m.cache uid (fun s => { s with location :=
              ⟨"Unknown Location", "No address provided", lat, lng⟩ }) }) := by
      unfold SessionManager.set_user_location
      rw [hlat, hlng, hc, htitle, haddr]
      rfl
    have hget := cacheGet_updateSession m t uid
      (fun s => { s with location := ⟨"Unknown Location", "No address provided", lat, lng⟩ })
      s hc
    rw [hset]
    refine ⟨rfl, ?_⟩
    unfold SessionManager.get_user_location
    rw [hget]
    rfl
  | none =>
    have hset : m.set_user_location t uid d
        = (Except.ok ⟨"Unknown Location", "No address provided", lat, lng⟩,
           { m with cache := cacheInsert m t uid ⟨⟨"Unknown Location", "No address provided", lat, lng⟩, [], 0⟩ }) := by
      unfold SessionManager.set_user_location
      rw [hlat, hlng, hc, htitle, haddr]
      rfl
    have hlook := lookupEntry_cacheInsert m t uid
      ⟨⟨"Unknown Location", "No address provided", lat, lng⟩, [], 0⟩ hnd hc
    rw [hset]
    refine ⟨rfl, ?_⟩
    unfold SessionManager.get_user_location SessionManager.cacheGet
    simp only at hlook
    rw [hlook]
    have hlt : ¬ (t + m.location_ttl < t) := by omega
    simp [Entry.alive, hlt]

/-- C10 witness: empty title and address on an empty store get both
fallback strings, stored and returned. -/
theorem C10_falsy_fallback_witness :
    ((List.map Prod.fst (SessionManager.mk 1000 1800 []).cache).Nodup
      ∧ (LocationData.mk (some "") (some "") (some 25) (some 121)).latitude = some 25
      ∧ (LocationData.mk (some "") (some "") (some 25) (some 121)).title = some "")
      ∧ (SessionManager.set_user_location ⟨1000, 1800, []⟩ 0 "u1"
            (LocationData.mk (some "") (some "") (some 25) (some 121))).1
          = Except.ok ⟨"Unknown Location", "No address provided", 25, 121⟩
      ∧ ((SessionManager.set_user_location ⟨1000, 1800, []⟩ 0 "u1"
            (LocationData.mk (some "") (some "") (some 25) (some 121))).2).get_user_location 0 "u1"
          = some ⟨"Unknown Location", "No address provided", 25, 121⟩ :=
  ⟨⟨by simp, rfl, rfl⟩,
    C10_falsy_fallback ⟨1000, 1800, []⟩ 0 "u1"
      (LocationData.mk (some "") (some "") (some 25) (some 121)) 25 121
      (by simp) rfl rfl rfl rfl⟩

/-- If the retry loop reports a hit, the hit came from the available pool. -/
theorem retryDraw_some_mem (rng : Nat → Nat) (avail : List Restaurant)
    (ma k : Nat) (sel : Restaurant) (k' j : Nat)
    (hne : avail ≠ [])
    (h : retryDraw rng avail ma k = (some (sel, k'), j)) : sel ∈ avail := by
  by_cases hk : k < ma
  · rw [retryDraw] at h
    simp only [hk, if_pos] at h
    by_cases hopen : is_restaurant_open (pickR (rng (k + 1)) avail) = true
    · simp only [hopen, if_pos, Prod.mk.injEq, Option.some.injEq] at h
      rw [← h.1.1]
      exact pickR_mem _ _ hne
    · simp only [hopen, if_neg, not_false_iff] at h
      exact retryDraw_some_mem rng avail ma (k + 1) sel k' j hne h
  · rw [retryDraw] at h
    simp [hk] at h
termination_by ma - k

/-- C3: `select` returns `(absent, 0)` exactly on the empty candidate
list; on every non-empty candidate list it returns some member of the
list — in particular it never returns absent even when every candidate
is in the user's recent-recommendation history, thanks to the fallback
to the full list. -/
theorem C3_select_total (m : SessionManager) (t : Nat) (rng : Nat → Nat)
    (uid : String) (ma : Nat) (rs : List Restaurant) :
    (rs = [] → select_open_restaurant m t rng rs uid ma = ((none, 0), m))
      ∧ (rs ≠ [] → ∃ r, r ∈ rs
          ∧ (select_open_restaurant m t rng rs uid ma).1.1 = some r) := by
  constructor
  · intro h
    subst h
    rfl
  · intro h
    have hne : ¬ rs.isEmpty := by simpa [List.isEmpty_iff] using h
    have havne : availableOf m t uid rs ≠ [] := availableOf_ne_nil m t uid rs h
    have hsub : availableOf m t uid rs ⊆ rs := availableOf_subset m t uid rs
    unfold select_open_restaurant
    by_cases ho : ((availableOf m t uid rs).filter is_restaurant_open).isEmpty
    · rcases hret : retryDraw rng (availableOf m t uid rs) ma 0 with ⟨osel, j⟩
      cases osel with
      | some p =>
        obtain ⟨sel, k'⟩ := p
        refine ⟨sel, hsub (retryDraw_some_mem rng _ ma 0 sel k' j havne hret), ?_⟩
        simp [hne, ho, hret]
      | none =>
        refine ⟨pickR (rng (ma + 1)) (availableOf m t uid rs),
          hsub (pickR_mem _ _ havne), ?_⟩
        simp [hne, ho, hret]
    · refine ⟨pickR (rng 0) ((availableOf m t uid rs).filter is_restaurant_open), ?_, ?_⟩
      · apply hsub
        apply List.mem_of_mem_filter
        apply pickR_mem
        simpa [List.isEmpty_iff] using ho
      · simp [hne, ho]

/-- C3 witness: both halves at concrete inputs — the empty list gives
`(absent, 0)`, and a list whose two candidates are both in the user's
recent history still yields a member of the list. -/
theorem C3_select_total_witness :
    (select_open_restaurant ⟨1000, 1800, []⟩ 0 (fun _ => 0) [] "u1" 10
        = ((none, 0), ⟨1000, 1800, []⟩))
      ∧ ∃ r, r ∈ [Restaurant.mk (some "A") (some "Alpha") (some true),
                  Restaurant.mk (some "B") (some "Beta") (some true)]
          ∧ (select_open_restaurant
              ⟨1000, 1800, [("u1", ⟨1800, ⟨⟨"H", "A", 1, 2⟩, ["A", "B"], 2⟩⟩)]⟩ 0 (fun _ => 0)
              [Restaurant.mk (some "A") (some "Alpha") (some true),
               Restaurant.mk (some "B") (some "Beta") (some true)] "u1" 10).1.1 = some r :=
  ⟨(C3_select_total ⟨1000, 1800, []⟩ 0 (fun _ => 0) "u1" 10 []).1 rfl,
   (C3_select_total ⟨1000, 1800, [("u1", ⟨1800, ⟨⟨"H", "A", 1, 2⟩, ["A", "B"], 2⟩⟩)]⟩ 0
      (fun _ => 0) "u1" 10
      [Restaurant.mk (some "A") (some "Alpha") (some true),
       Restaurant.mk (some "B") (some "Beta") (some true)]).2 (by decide)⟩

/-- C4: when exactly one available candidate is treated as open (openness
true or unknown), `select` deterministically returns it with attempt
count 1 and records its id through `add_recommendation`. -/
theorem C4_single_open_deterministic (m : SessionManager) (t : Nat) (rng : Nat → Nat)
    (uid : String) (ma : Nat) (rs : List Restaurant) (r : Restaurant)
    (hne : rs ≠ [])
    (hone : (availableOf m t uid rs).filter is_restaurant_open = [r]) :
    select_open_restaurant m t rng rs uid ma
      = ((some r, 1), (m.add_recommendation t uid (get_restaurant_id r)).2) := by
  have hrs : ¬ rs.isEmpty := by simpa [List.isEmpty_iff] using hne
  have hpick : pickR (rng 0) [r] = r := by
    unfold pickR
    rw [List.length_singleton, Nat.mod_one]
    rfl
  unfold select_open_restaurant
  rw [hone]
  simp [hrs, hpick]

/-- C4 witness: closed A and open B leave exactly B available-open, and
`select` returns B with one attempt, recording "B". -/
theorem C4_single_open_deterministic_witness :
    ((availableOf ⟨1000, 1800, []⟩ 0 "u1"
        [Restaurant.mk (some "A") (some "Alpha") (some false),
         Restaurant.mk (some "B") (some "Beta") (some true)]).filter is_restaurant_open
      = [Restaurant.mk (some "B") (some "Beta") (some true)])
      ∧ select_open_restaurant ⟨1000, 1800, []⟩ 0 (fun _ => 0)
          [Restaurant.mk (some "A") (some "Alpha") (some false),
           Restaurant.mk (some "B") (some "Beta") (some true)] "u1" 10
        = ((some (Restaurant.mk (some "B") (some "Beta") (some true)), 1),
           (SessionManager.add_recommendation ⟨1000, 1800, []⟩ 0 "u1" "B").2) :=
  ⟨by decide,
   C4_single_open_deterministic ⟨1000, 1800, []⟩ 0 (fun _ => 0) "u1" 10
     [Restaurant.mk (some "A") (some "Alpha") (some false),
      Restaurant.mk (some "B") (some "Beta") (some true)]
     (Restaurant.mk (some "B") (some "Beta") (some true)) (by decide) (by decide)⟩

/-- C9: the attempt count returned by `select` is always 0, 1 or exactly
`max_attempts`: openness of each candidate is fixed during the call, so
when the pre-scan finds no open available candidate the retry loop can
never hit and always exhausts its budget. -/
theorem C9_attempts_trichotomy (m : SessionManager) (t : Nat) (rng : Nat → Nat)
    (uid : String) (ma : Nat) (rs : List Restaurant) :
    (select_open_restaurant m t rng rs uid ma).1.2 = 0
      ∨ (select_open_restaurant m t rng rs uid ma).1.2 = 1
      ∨ (select_open_restaurant m t rng rs uid ma).1.2 = ma := by
  by_cases hrs : rs.isEmpty
  · left
    unfold select_open_restaurant
    simp [hrs]
  · have h : rs ≠ [] := by simpa [List.isEmpty_iff] using hrs
    have havne : availableOf m t uid rs ≠ [] := availableOf_ne_nil m t uid rs h
    unfold select_open_restaurant
    by_cases ho : ((availableOf m t uid rs).filter is_restaurant_open).isEmpty
    · have hclosed : ∀ r ∈ availableOf m t uid rs, is_restaurant_open r = false := by
        have hnil : (availableOf m t uid rs).filter is_restaurant_open = [] := by
          simpa [List.isEmpty_iff] using ho
        intro r hr
        by_contra hop
        have : r ∈ (availableOf m t uid rs).filter is_restaurant_open :=
          List.mem_filter.mpr ⟨hr, by simpa using hop⟩
        rw [hnil] at this
        exact absurd this (List.not_mem_nil r)
      have hret := retryDraw_all_closed rng (availableOf m t uid rs) havne hclosed ma 0
      right; right
      simp [hrs, ho, hret]
    · right; left
      simp [hrs, ho]

/-- Concrete location payload used for the TTL scenario. -/
def demoData : LocationData := ⟨some "Home", some "1 Main St", some 25, some 121⟩

/-- Empty store with the default capacity and TTL. -/
def demoM0 : SessionManager := ⟨1000, 1800, []⟩

/-- Store after a first `set_user_location` for "u1" at time 0. -/
def demoM1 : SessionManager := (demoM0.set_user_location 0 "u1" demoData).2

/-- Store after a second `set_user_location` for "u1" at time 1000. -/
def demoM2 : SessionManager := (demoM1.set_user_location 1000 "u1" demoData).2

/-- C1 counterexample: the second `set_user_location` call (time 1000)
succeeds, yet only 1000 seconds later — well inside `location_ttl = 1800`
measured from that call — both `get_user_location` and `get_user_session`
return absent: the update path mutates the session in place and never
refreshes the entry's TTL clock. -/
theorem C1_ttl_refresh_cex :
    (demoM1.set_user_location 1000 "u1" demoData).1
        = Except.ok ⟨"Home", "1 Main St", 25, 121⟩
      ∧ 2000 ≤ 1000 + demoM2.location_ttl
      ∧ demoM2.get_user_location 2000 "u1" = none
      ∧ demoM2.get_user_session 2000 "u1" = none :=
  ⟨rfl, by decide, rfl, rfl⟩

/-- C1 amended: `set_user_location` sets the entry's TTL clock only when
it creates the record (no live entry for the user): the record is then
readable for `location_ttl` seconds measured from that call.  A call that
updates an existing live record leaves the entry's expiry unchanged, so
the TTL stays measured from the write that created the entry. -/
theorem C1_ttl_amended (m : SessionManager) (t : Nat) (uid : String) (d : LocationData)
    (lat lng : Int) (hlat : d.latitude = some lat) (hlng : d.longitude = some lng)
    (hnd : (m.cache.map Prod.fst).Nodup) :
    (m.cacheGet t uid = none →
      ∃ e, lookupEntry ((m.set_user_location t uid d).2).cache uid = some e
        ∧ e.expires = t + m.location_ttl
        ∧ ∀ t1, t1 ≤ t + m.location_ttl →
            ((m.set_user_location t uid d).2).get_user_location t1 uid
              = some e.session.location)
      ∧ (∀ e, lookupEntry m.cache uid = some e → e.alive t = true →
          ∃ e1, lookupEntry ((m.set_user_location t uid d).2).cache uid = some e1
            ∧ e1.expires = e.expires) := by
  constructor
  · intro hc
    have hset : (m.set_user_location t uid d).2
        = { m with cache := cacheInsert m t uid ⟨⟨pyStrOr d.title "Unknown Location", pyStrOr d.address "No address provided", lat, lng⟩, [], 0⟩ } := by
      unfold SessionManager.set_user_location
      rw [hlat, hlng, hc]
    have hlook := lookupEntry_cacheInsert m t uid
      ⟨⟨pyStrOr d.title "Unknown Location", pyStrOr d.address "No address provided", lat, lng⟩,
        [], 0⟩ hnd hc
    refine ⟨⟨t + m.location_ttl,
      ⟨⟨pyStrOr d.title "Unknown Location", pyStrOr d.address "No address provided", lat, lng⟩,
        [], 0⟩⟩, ?_, rfl, ?_⟩
    · rw [hset]
      exact hlook
    · intro t1 ht1
      rw [hset]
      unfold SessionManager.get_user_location SessionManager.cacheGet
      simp only
      rw [hlook]
      have hlt : ¬ (t + m.location_ttl < t1) := by omega
      simp [Entry.alive, hlt]
  · intro e he ha
    have hc : m.cacheGet t uid = some e.session := by
      unfold SessionManager.cacheGet
      rw [he]
      simp [ha]
    have hset : (m.set_user_location t uid d).2
        = { m with cache := updateSession m.cache uid (fun s => { s with location :=
            ⟨pyStrOr d.title "Unknown Location", pyStrOr d.address "No address provided", lat, lng⟩ }) } := by
      unfold SessionManager.set_user_location
      rw [hlat, hlng, hc]
    refine ⟨⟨e.expires, { e.session with location :=
      ⟨pyStrOr d.title "Unknown Location", pyStrOr d.address "No address provided", lat, lng⟩ }⟩,
      ?_, rfl⟩
    rw [hset]
    simp only
    rw [lookupEntry_updateSession, he]
    rfl

/-- C1 amended witness: both halves at concrete inputs — a create at time
0 is readable through time 1800, and an update at time 1000 keeps the
original expiry 1800. -/
theorem C1_ttl_amended_witness :
    (demoData.latitude = some 25 ∧ demoData.longitude = some 121
      ∧ (demoM0.cache.map Prod.fst).Nodup ∧ demoM0.cacheGet 0 "u1" = none
      ∧ (demoM1.cache.map Prod.fst).Nodup
      ∧ lookupEntry demoM1.cache "u1" = some ⟨1800, ⟨⟨"Home", "1 Main St", 25, 121⟩, [], 0⟩⟩
      ∧ Entry.alive ⟨1800, ⟨⟨"Home", "1 Main St", 25, 121⟩, [], 0⟩⟩ 1000 = true)
      ∧ (∃ e, lookupEntry ((demoM0.set_user_location 0 "u1" demoData).2).cache "u1" = some e
          ∧ e.expires = 0 + demoM0.location_ttl
          ∧ ∀ t1, t1 ≤ 0 + demoM0.location_ttl →
              ((demoM0.set_user_location 0 "u1" demoData).2).get_user_location t1 "u1"
                = some e.session.location)
      ∧ (∃ e1, lookupEntry ((demoM1.set_user_location 1000 "u1" demoData).2).cache "u1" = some e1
          ∧ e1.expires = 1800) :=
  ⟨⟨rfl, rfl, by decide, rfl, by decide, rfl, rfl⟩,
   (C1_ttl_amended demoM0 0 "u1" demoData 25 121 rfl rfl (by decide)).1 rfl,
   by
     obtain ⟨e1, h1, h2⟩ := (C1_ttl_amended demoM1 1000 "u1" demoData 25 121 rfl rfl
       (by decide)).2 ⟨1800, ⟨⟨"Home", "1 Main St", 25, 121⟩, [], 0⟩⟩ rfl rfl
     exact ⟨e1, h1, h2⟩⟩

/-! ### Capacity invariant lemmas -/

theorem updateSession_length (c : List (String × Entry)) (uid : String)
    (f : UserSession → UserSession) : (updateSession c uid f).length = c.length := by
  induction c with
  | nil => rfl
  | cons p rest ih =>
    obtain ⟨k, e⟩ := p
    by_cases h : k = uid <;> simp [updateSession, h, ih]

theorem cacheInsert_length_le (m : SessionManager) (t : Nat) (uid : String) (s : UserSession)
    (hM : 1 ≤ m.max_users) : (cacheInsert m t uid s).length ≤ m.max_users := by
  unfold cacheInsert evictForInsert
  simp only [List.length_append, List.length_drop, List.length_cons, List.length_nil]
  omega

theorem set_user_location_length_le (m : SessionManager) (t : Nat) (uid : String)
    (d : LocationData) (hM : 1 ≤ m.max_users) (h : m.cache.length ≤ m.max_users) :
    ((m.set_user_location t uid d).2).cache.length ≤ m.max_users := by
  unfold SessionManager.set_user_location
  cases hlat : d.latitude with
  | none => cases d.longitude <;> exact h
  | some lat =>
    cases hlng : d.longitude with
    | none => exact h
    | some lng =>
      cases hc : m.cacheGet t uid with
      | some s =>
        simp only
        rw [updateSession_length]
        exact h
      | none =>
        simp only
        exact cacheInsert_length_le m t uid _ hM

theorem step_cache_length (m : SessionManager) (t : Nat) (op : SessionOp)
    (hM : 1 ≤ m.max_users) (h : m.cache.length ≤ m.max_users) :
    (m.step t op).cache.length ≤ m.max_users
      ∧ (m.step t op).max_users = m.max_users := by
  cases op with
  | setLoc uid d =>
    refine ⟨set_user_location_length_le m t uid d hM h, ?_⟩
    show ((m.set_user_location t uid d).2).max_users = m.max_users
    unfold SessionManager.set_user_location
    cases d.latitude with
    | none => cases d.longitude <;> rfl
    | some lat =>
      cases d.longitude with
      | none => rfl
      | some lng => cases m.cacheGet t uid <;> rfl
  | addRec uid rid =>
    show ((m.add_recommendation t uid rid).2).cache.length ≤ m.max_users
      ∧ ((m.add_recommendation t uid rid).2).max_users = m.max_users
    unfold SessionManager.add_recommendation
    cases m.cacheGet t uid with
    | some s =>
      refine ⟨?_, rfl⟩
      simp only [updateSession_length]
      exact h
    | none => exact ⟨h, rfl⟩
  | removeLoc uid =>
    show ((m.remove_user_location t uid).2).cache.length ≤ m.max_users
      ∧ ((m.remove_user_location t uid).2).max_users = m.max_users
    unfold SessionManager.remove_user_location
    cases m.cacheGet t uid with
    | some s =>
      exact ⟨(List.length_filter_le _ _).trans h, rfl⟩
    | none => exact ⟨h, rfl⟩
  | cleanup =>
    show ((m.cleanup_expired t).2).cache.length ≤ m.max_users
      ∧ ((m.cleanup_expired t).2).max_users = m.max_users
    unfold SessionManager.cleanup_expired expireCache
    exact ⟨(List.length_filter_le _ _).trans h, rfl⟩

theorem run_cache_length (m : SessionManager) (ops : List (Nat × SessionOp))
    (hM : 1 ≤ m.max_users) (h : m.cache.length ≤ m.max_users) :
    (m.run ops).cache.length ≤ m.max_users ∧ (m.run ops).max_users = m.max_users := by
  induction ops generalizing m with
  | nil => exact ⟨h, rfl⟩
  | cons p ops ih =>
    obtain ⟨h1, h2⟩ := step_cache_length m p.1 p.2 hM h
    have hrun : m.run (p :: ops) = (m.step p.1 p.2).run ops := rfl
    rw [hrun]
    obtain ⟨h3, h4⟩ := ih (m.step p.1 p.2) (by rw [h2]; exact hM) (by rw [h2]; exact h1)
    rw [h2] at h3 h4
    exact ⟨h3, h4⟩

theorem expireCache_id (t T : Nat) (c : List (String × Entry))
    (h : ∀ p ∈ c, p.2.expires = t + T) : expireCache t c = c := by
  unfold expireCache
  apply List.filter_eq_self.mpr
  intro p hp
  simp only [Entry.alive, h p hp, Bool.not_eq_true', decide_eq_false_iff_not]
  omega

/-- The cache entry a creating `set_user_location` at time `t` stores for
user `u`, on a store with TTL `T`. -/
def freshEntry (T t : Nat) (d : LocationData) (lat lng : Int) (u : String) : String × Entry :=
  (u, ⟨t + T, ⟨⟨pyStrOr d.title "Unknown Location", pyStrOr d.address "No address provided",
    lat, lng⟩, [], 0⟩⟩)

/-- Distinct fresh location writes at one time fill the cache like a
bounded queue: the result keeps the suffix of the appended fresh entries
that fits under the capacity. -/
theorem run_setLoc_fresh (M T t : Nat) (d : LocationData) (lat lng : Int)
    (hlat : d.latitude = some lat) (hlng : d.longitude = some lng) (hM : 1 ≤ M) :
    ∀ (uids : List String) (c0 : List (String × Entry)),
      uids.Nodup →
      (∀ u ∈ uids, u ∉ c0.map Prod.fst) →
      (∀ p ∈ c0, p.2.expires = t + T) →
      c0.length ≤ M →
      SessionManager.run ⟨M, T, c0⟩ (uids.map (fun u => (t, SessionOp.setLoc u d)))
        = ⟨M, T,
            (c0 ++ uids.map (freshEntry T t d lat lng)).drop
              ((c0 ++ uids.map (freshEntry T t d lat lng)).length - M)⟩ := by
  intro uids
  induction uids with
  | nil =>
    intro c0 _ _ _ hlen
    simp only [List.map_nil, List.append_nil]
    rw [Nat.sub_eq_zero_of_le hlen, List.drop_zero]
    rfl
  | cons u us ih =>
    intro c0 hnd hfresh hexp hlen
    have hget : SessionManager.cacheGet ⟨M, T, c0⟩ t u = none := by
      unfold SessionManager.cacheGet
      rw [(lookupEntry_eq_none_iff c0 u).mpr (hfresh u (by simp))]
    have hlenx : (c0 ++ [freshEntry T t d lat lng u]).length = c0.length + 1 := by
      simp
    have hx : cacheInsert ⟨M, T, c0⟩ t u
          ⟨⟨pyStrOr d.title "Unknown Location", pyStrOr d.address "No address provided", lat, lng⟩, [], 0⟩
        = (c0 ++ [freshEntry T t d lat lng u]).drop
            ((c0 ++ [freshEntry T t d lat lng u]).length - M) := by
      show evictForInsert M (expireCache t c0) ++ [freshEntry T t d lat lng u] = _
      rw [expireCache_id t T c0 hexp, hlenx]
      show c0.drop (c0.length + 1 - M) ++ [freshEntry T t d lat lng u] = _
      rw [List.drop_append_of_le_length (by omega)]
    have hstep : SessionManager.step ⟨M, T, c0⟩ t (SessionOp.setLoc u d)
        = ⟨M, T, (c0 ++ [freshEntry T t d lat lng u]).drop
            ((c0 ++ [freshEntry T t d lat lng u]).length - M)⟩ := by
      show (SessionManager.set_user_location ⟨M, T, c0⟩ t u d).2 = _
      unfold SessionManager.set_user_location
      rw [hlat, hlng, hget]
      simp only
      rw [hx]
    have hrun : SessionManager.run ⟨M, T, c0⟩
        ((u :: us).map (fun u => (t, SessionOp.setLoc u d)))
        = SessionManager.run (SessionManager.step ⟨M, T, c0⟩ t (SessionOp.setLoc u d))
            (us.map (fun u => (t, SessionOp.setLoc u d))) := rfl
    obtain ⟨hu, hus⟩ := List.nodup_cons.mp hnd
    have hfresh1 : ∀ v ∈ us,
        v ∉ ((c0 ++ [freshEntry T t d lat lng u]).drop
            ((c0 ++ [freshEntry T t d lat lng u]).length - M)).map Prod.fst := by
      intro v hv
      apply keys_drop_not_mem
      simp only [List.map_append, List.mem_append, not_or, freshEntry, List.map_cons,
        List.map_nil, List.mem_cons, List.not_mem_nil, or_false]
      exact ⟨hfresh v (List.mem_cons_of_mem u hv), fun hvu => hu (hvu ▸ hv)⟩
    have hexp1 : ∀ p ∈ ((c0 ++ [freshEntry T t d lat lng u]).drop
          ((c0 ++ [freshEntry T t d lat lng u]).length - M)),
        p.2.expires = t + T := by
      intro p hp
      have hp2 := List.mem_of_mem_drop hp
      rcases List.mem_append.mp hp2 with hc | hc
      · exact hexp p hc
      · simp only [List.mem_cons, List.not_mem_nil, or_false] at hc
        rw [hc]
        rfl
    have hlen1 : ((c0 ++ [freshEntry T t d lat lng u]).drop
          ((c0 ++ [freshEntry T t d lat lng u]).length - M)).length ≤ M := by
      rw [List.length_drop, hlenx]
      omega
    rw [hrun, hstep, ih _ hus hfresh1 hexp1 hlen1]
    rw [drop_suffix_absorb M (c0 ++ [freshEntry T t d lat lng u]) (us.map (freshEntry T t d lat lng))]
    simp [List.append_assoc]

theorem lookupEntry_map_freshEntry (T t : Nat) (d : LocationData) (lat lng : Int)
    (us : List String) (x : String) :
    lookupEntry (us.map (freshEntry T t d lat lng)) x
      = if x ∈ us
        then some ⟨t + T, ⟨⟨pyStrOr d.title "Unknown Location",
          pyStrOr d.address "No address provided", lat, lng⟩, [], 0⟩⟩
        else none := by
  induction us with
  | nil => simp [lookupEntry]
  | cons u us ih =>
    by_cases h : u = x
    · subst h
      simp [lookupEntry, freshEntry]
    · simp only [List.map_cons, freshEntry, lookupEntry, h, if_neg, not_false_iff,
        List.mem_cons]
      rw [ih]
      by_cases hx : x ∈ us
      · simp [hx]
      · have hxu : ¬ (x = u) := fun hh => h hh.symm
        simp [hx, hxu]

theorem getLoc_map_fresh (M T t : Nat) (d : LocationData) (lat lng : Int)
    (us : List String) (x : String) :
    ((SessionManager.mk M T (us.map (freshEntry T t d lat lng))).get_user_location t x).isSome
      = decide (x ∈ us) := by
  unfold SessionManager.get_user_location SessionManager.cacheGet
  simp only
  rw [lookupEntry_map_freshEntry]
  by_cases hx : x ∈ us
  · have hlt : ¬ (t + T < t) := by omega
    simp [hx, Entry.alive, hlt]
  · simp [hx]

/-- C8: the store never exceeds `max_users` entries under any operation
sequence started from an empty store, and writing locations for
`max_users + 1` distinct users leaves exactly `max_users` entries in the
cache, of which exactly `max_users` of the written users are still
retrievable (one having been evicted). -/
theorem C8_capacity_eviction (M T t : Nat) (ops : List (Nat × SessionOp))
    (uids : List String) (d : LocationData) (lat lng : Int)
    (hM : 1 ≤ M) (hnd : uids.Nodup) (hlen : uids.length = M + 1)
    (hlat : d.latitude = some lat) (hlng : d.longitude = some lng) :
    ((SessionManager.mk M T []).run ops).cache.length ≤ M
      ∧ ((SessionManager.mk M T []).run
          (uids.map (fun u => (t, SessionOp.setLoc u d)))).cache.length = M
      ∧ uids.countP (fun u =>
          (((SessionManager.mk M T []).run
            (uids.map (fun u => (t, SessionOp.setLoc u d)))).get_user_location t u).isSome)
        = M := by
  have hpart1 := (run_cache_length ⟨M, T, []⟩ ops hM (by simp)).1
  have hrun := run_setLoc_fresh M T t d lat lng hlat hlng hM uids []
    hnd (by simp) (by simp) (by simp)
  simp only [List.nil_append] at hrun
  refine ⟨hpart1, ?_, ?_⟩
  · rw [hrun]
    simp only [List.length_drop, List.length_map]
    omega
  · cases uids with
    | nil => simp at hlen
    | cons u0 rest =>
      have hrest : rest.length = M := by
        simpa using hlen
      have hdrop : ((u0 :: rest).map (freshEntry T t d lat lng)).drop
          (((u0 :: rest).map (freshEntry T t d lat lng)).length - M)
          = rest.map (freshEntry T t d lat lng) := by
        simp only [List.map_cons, List.length_cons, List.length_map, hrest,
          Nat.add_sub_cancel_left]
        rw [List.drop_one]
        rfl
      simp only [hrun, hdrop, getLoc_map_fresh]
      obtain ⟨hu0, hndr⟩ := List.nodup_cons.mp hnd
      rw [List.countP_cons]
      have h1 : decide (u0 ∈ rest) = false := by
        simpa using hu0
      rw [h1]
      simp only [Bool.false_eq_true, if_neg, not_false_iff, Nat.add_zero]
      rw [List.countP_eq_length.mpr (fun a ha => by simpa using ha)]
      exact hrest

/-- C8 witness: capacity 2, three distinct users — the bound holds for a
sample operation sequence, and after the three inserts exactly two
entries remain, two of the three users retrievable. -/
theorem C8_capacity_eviction_witness :
    (1 ≤ 2 ∧ (["a", "b", "c"] : List String).Nodup
      ∧ (["a", "b", "c"] : List String).length = 2 + 1)
      ∧ ((SessionManager.mk 2 10 []).run [(0, SessionOp.setLoc "a" demoData)]).cache.length ≤ 2
      ∧ ((SessionManager.mk 2 10 []).run
          ((["a", "b", "c"] : List String).map (fun u => (0, SessionOp.setLoc u demoData)))).cache.length = 2
      ∧ (["a", "b", "c"] : List String).countP (fun u =>
          (((SessionManager.mk 2 10 []).run
            ((["a", "b", "c"] : List String).map (fun u => (0, SessionOp.setLoc u demoData)))).get_user_location 0 u).isSome)
        = 2 :=
  ⟨⟨by decide, by decide, rfl⟩,
   C8_capacity_eviction 2 10 0 [(0, SessionOp.setLoc "a" demoData)] ["a", "b", "c"]
     demoData 25 121 (by decide) (by decide) rfl rfl rfl⟩
